import Mathlib

/- Verification of the GPIO driver in src/os/pi/src/gpio.rs: a shallow
embedding of the register block, the typestate pin handle and its
operations, together with theorems about the specified behaviour.
Hardware registers are 32-bit words modelled as Nat; every operation
additionally returns the exact sequence of register accesses it performs. -/

/-- The alternative GPIO function codes: the source names this enum
Function, renamed here only because Function is a root namespace of the
core library. Representation values from the source:
Input = 0b000, Output = 0b001, Alt0 = 0b100, Alt1 = 0b101,
Alt2 = 0b110, Alt3 = 0b111, Alt4 = 0b011, Alt5 = 0b010. -/
inductive GpioFunction
  | Input
  | Output
  | Alt0
  | Alt1
  | Alt2
  | Alt3
  | Alt4
  | Alt5
deriving DecidableEq

/-- Numeric value of a function code: models the Rust cast of the
repr(u8) enum to u32 in into_alt. -/
def GpioFunction.code : GpioFunction → Nat
  | .Input => 0b000
  | .Output => 0b001
  | .Alt0 => 0b100
  | .Alt1 => 0b101
  | .Alt2 => 0b110
  | .Alt3 => 0b111
  | .Alt4 => 0b011
  | .Alt5 => 0b010

/-- The GPIO register block (struct Registers in gpio.rs), restricted to
the groups the driver actually reads or writes: FSEL (6 words, Volatile),
SET (2 words, WriteVolatile), CLR (2 words, WriteVolatile) and LEV
(2 words, ReadVolatile). The remaining groups (EDS, REN, FEN, HEN, LEN,
AREN, AFEN, PUD, PUDCLK) are declared in the source only for layout
fidelity and are never accessed by any operation. -/
structure Registers where
  FSEL : Fin 6 → Nat
  SET : Fin 2 → Nat
  CLR : Fin 2 → Nat
  LEV : Fin 2 → Nat

/-- One hardware register access, recording which register was touched
and with which 32-bit value, so that theorems can count and order the
accesses an operation performs. -/
inductive Event
  | readFSEL (index : Nat) (value : Nat)
  | writeFSEL (index : Nat) (value : Nat)
  | writeSET (bank : Nat) (value : Nat)
  | writeCLR (bank : Nat) (value : Nat)
  | readLEV (bank : Nat) (value : Nat)
deriving DecidableEq

/-- The typestate markers generated by the states! macro in gpio.rs:
Uninitialized, Input, Output, Alt. They carry no run-time data and only
restrict which operations a handle offers. -/
inductive PinState
  | Uninitialized
  | Input
  | Output
  | Alt
deriving DecidableEq

/-- The pin handle: pub struct Gpio of State, with fields pin (u8) and
an exclusive reference to the process-wide register block. The block is
the singleton at GPIO_BASE and is threaded through the operations as
explicit state, so the handle itself carries only the pin number. The
invariant pin less-or-equal 53 is established by new, the only public
constructor, which panics for larger pins, and is preserved by
transition; carrying it here makes the FSEL array access in into_alt
total, exactly as the Rust bounds check cannot fail for handles created
through the public API. -/
structure Gpio (s : PinState) where
  pin : Nat
  pin_le : pin ≤ 53

/-- The private fn transition of Gpio: re-tags the handle, copying the
pin and the register reference unchanged. -/
def Gpio.transition {s t : PinState} (g : Gpio s) : Gpio t :=
  { pin := g.pin, pin_le := g.pin_le }

/-- The FSEL register index computed in into_alt, as a bounded index:
let index = (self.pin / 10) as usize. The bound follows from the handle
invariant. -/
def Gpio.fselReg {s : PinState} (g : Gpio s) : Fin 6 :=
  ⟨g.pin / 10, by have h := g.pin_le; omega⟩

/-- Gpio new (pin : u8): panics when pin exceeds 53, modelled as none;
otherwise returns an Uninitialized handle for that pin together with the
list of hardware accesses performed, which is empty: construction does
not touch the registers. -/
def Gpio.new (pin : Nat) : Option (Gpio PinState.Uninitialized × List Event) :=
  if h : pin > 53 then
    none
  else
    some ({ pin := pin, pin_le := by omega }, [])

/-- into_alt on an Uninitialized handle: computes the register index
pin / 10 and the shift (pin - index * 10) * 3, reads FSEL at the index,
and writes back read AND NOT (0b111 shifted) OR (code shifted); the u32
complement of 0b111 shifted is (2 pow 32 - 1) XOR (7 shifted). Returns
the Alt-tagged handle, the updated registers, and the two accesses of
the read-modify-write in order. -/
def Gpio.into_alt (g : Gpio PinState.Uninitialized) (function : GpioFunction)
    (regs : Registers) : Gpio PinState.Alt × Registers × List Event :=
  let index : Fin 6 := g.fselReg
  let shift : Nat := (g.pin - index.val * 10) * 3
  let read : Nat := regs.FSEL index
  let written : Nat :=
    read &&& ((2 ^ 32 - 1) ^^^ (7 <<< shift)) ||| (function.code <<< shift)
  (g.transition,
   { regs with FSEL := fun j => if j = index then written else regs.FSEL j },
   [Event.readFSEL index.val read, Event.writeFSEL index.val written])

/-- into_output: the source body is self.into_alt(Function::Output)
followed by transition into the Output state. -/
def Gpio.into_output (g : Gpio PinState.Uninitialized) (regs : Registers) :
    Gpio PinState.Output × Registers × List Event :=
  let r := g.into_alt GpioFunction.Output regs
  (r.1.transition, r.2)

/-- into_input: the source body is self.into_alt(Function::Input)
followed by transition into the Input state. -/
def Gpio.into_input (g : Gpio PinState.Uninitialized) (regs : Registers) :
    Gpio PinState.Input × Registers × List Event :=
  let r := g.into_alt GpioFunction.Input regs
  (r.1.transition, r.2)

/-- Gpio set on an Output handle: the body in the source is the
unconditional unimplemented macro, which panics; the panic is modelled
as none. No register is read or written. -/
def Gpio.set (_g : Gpio PinState.Output) (_regs : Registers) :
    Option (Registers × List Event) :=
  none

/-- Gpio clear on an Output handle: the body in the source is the
unconditional unimplemented macro, which panics; modelled as none. -/
def Gpio.clear (_g : Gpio PinState.Output) (_regs : Registers) :
    Option (Registers × List Event) :=
  none

/-- Gpio level on an Input handle: the body in the source is the
unconditional unimplemented macro, which panics; modelled as none. -/
def Gpio.level (_g : Gpio PinState.Input) (_regs : Registers) :
    Option (Bool × List Event) :=
  none

/-- The state transitions offered by the public consuming API, one
constructor per method of the impl block for Gpio in the Uninitialized
state (gpio.rs lines 118 to 141). The impl blocks for Output and Input
contain only set, clear and level, which borrow the handle mutably and
do not change the state tag, and no method at all is defined for Alt,
so no constructor starts from Input, Output or Alt. -/
inductive Step : PinState → PinState → Prop
  | into_input : Step PinState.Uninitialized PinState.Input
  | into_output : Step PinState.Uninitialized PinState.Output
  | into_alt : Step PinState.Uninitialized PinState.Alt

/-- The register index computation of into_alt on a bare pin number:
pin / 10. -/
def fselIndex (pin : Nat) : Nat := pin / 10

/-- The bit shift computation of into_alt on a bare pin number:
(pin - (pin / 10) * 10) * 3. -/
def fselShift (pin : Nat) : Nat := (pin - (pin / 10) * 10) * 3

/-- Modelled from the spec: set, clear and level are unimplemented in
the source, and section 4.4 of the spec fixes their addressing as
bank = pin_index / 32. -/
def bankIndex (pin : Nat) : Nat := pin / 32

/-- Modelled from the spec: section 4.4 fixes the bit within the bank
as bit = pin_index mod 32. -/
def bankBit (pin : Nat) : Nat := pin % 32

/-- A concrete all-zero register state, used to evaluate the operations
at specific inputs. -/
def regs0 : Registers :=
  { FSEL := fun _ => 0, SET := fun _ => 0, CLR := fun _ => 0, LEV := fun _ => 0 }

/-- Every function code fits in the 3-bit field. -/
lemma GpioFunction.code_lt (f : GpioFunction) : f.code < 8 := by
  cases f <;> simp [GpioFunction.code]

/-- After the read-modify-write value is formed, the 3-bit field at
offset shift holds exactly the code, for any prior register contents. -/
lemma rmw_field_eq (r code shift : Nat) (hs : shift ≤ 27) (hc : code < 8) :
    ((r &&& ((2 ^ 32 - 1) ^^^ (7 <<< shift)) ||| code <<< shift) >>> shift) &&& 7
      = code := by
  apply Nat.eq_of_testBit_eq
  intro i
  simp only [Nat.testBit_land, Nat.testBit_shiftRight, Nat.testBit_lor,
    Nat.testBit_xor, Nat.testBit_shiftLeft, Nat.testBit_two_pow_sub_one]
  by_cases hi : i < 3
  · have h32 : shift + i < 32 := by omega
    have h7i : Nat.testBit 7 i = true := by interval_cases i <;> rfl
    simp [Nat.add_sub_cancel_left, h32, h7i, Nat.le_add_right]
  · have h8 : (8 : Nat) ≤ 2 ^ i := by
      calc (8 : Nat) = 2 ^ 3 := by norm_num
      _ ≤ 2 ^ i := Nat.pow_le_pow_right (by norm_num) (by omega)
    have h7i : Nat.testBit 7 i = false := Nat.testBit_eq_false_of_lt (by omega)
    have hci : Nat.testBit code i = false := Nat.testBit_eq_false_of_lt (by omega)
    simp [h7i, hci]

/-- The read-modify-write value agrees with the prior register contents
on every bit of the 32-bit word outside the field at offset shift. -/
lemma rmw_frame_bit (r code shift j : Nat) (hc : code < 8)
    (hj : j < 32) (hout : j < shift ∨ shift + 3 ≤ j) :
    Nat.testBit (r &&& ((2 ^ 32 - 1) ^^^ (7 <<< shift)) ||| code <<< shift) j
      = Nat.testBit r j := by
  simp only [Nat.testBit_lor, Nat.testBit_land, Nat.testBit_xor,
    Nat.testBit_shiftLeft, Nat.testBit_two_pow_sub_one]
  rcases hout with h | h
  · have hsj : ¬ (shift ≤ j) := by omega
    simp [hsj, hj]
  · have hsj : shift ≤ j := by omega
    have h8 : (8 : Nat) ≤ 2 ^ (j - shift) := by
      calc (8 : Nat) = 2 ^ 3 := by norm_num
      _ ≤ 2 ^ (j - shift) := Nat.pow_le_pow_right (by norm_num) (by omega)
    have h7 : Nat.testBit 7 (j - shift) = false :=
      Nat.testBit_eq_false_of_lt (by omega)
    have hcj : Nat.testBit code (j - shift) = false :=
      Nat.testBit_eq_false_of_lt (by omega)
    simp [hsj, h7, hcj, hj]

/-- Claim C1: for every pin in 0..53 (every Uninitialized handle) and
every function code, into_alt performs exactly one read-modify-write of
function-select register pin / 10 (one read followed by one write of
that register, and nothing else), after which the 3-bit field at bit
offset (pin mod 10) * 3 of that register equals the function code. -/
theorem into_alt_sets_field (g : Gpio PinState.Uninitialized)
    (f : GpioFunction) (regs : Registers) :
    (∃ w, (g.into_alt f regs).2.2 =
      [Event.readFSEL (fselIndex g.pin) (regs.FSEL g.fselReg),
       Event.writeFSEL (fselIndex g.pin) w]) ∧
    (((g.into_alt f regs).2.1.FSEL g.fselReg) >>> ((g.pin % 10) * 3)) &&& 7
      = f.code := by
  refine ⟨⟨_, rfl⟩, ?_⟩
  have hp := g.pin_le
  have hsh : (g.pin - g.pin / 10 * 10) * 3 = g.pin % 10 * 3 := by omega
  have hle : g.pin % 10 * 3 ≤ 27 := by omega
  simp only [Gpio.into_alt, Gpio.fselReg, if_pos rfl]
  rw [hsh]
  exact rmw_field_eq _ _ _ hle f.code_lt

/-- A concrete Uninitialized handle for pin 0. -/
def pin0 : Gpio PinState.Uninitialized := ⟨0, by omega⟩

/-- A concrete Uninitialized handle for pin 1. -/
def pin1 : Gpio PinState.Uninitialized := ⟨1, by omega⟩

/-- A concrete Uninitialized handle for pin 35, the concrete scenario
of the spec. -/
def pin35 : Gpio PinState.Uninitialized := ⟨35, by omega⟩

/-- Claim C2: for every pin, every function code and every prior
register contents, into_alt leaves each of the 32 bits of the target
function-select register outside the field at offset bit_shift
unchanged, leaves every other function-select register unchanged, and
does not touch the SET, CLR and LEV groups. -/
theorem into_alt_frame (g : Gpio PinState.Uninitialized) (f : GpioFunction)
    (regs : Registers) :
    (∀ j, j < 32 → j < fselShift g.pin ∨ fselShift g.pin + 3 ≤ j →
      Nat.testBit ((g.into_alt f regs).2.1.FSEL g.fselReg) j
        = Nat.testBit (regs.FSEL g.fselReg) j) ∧
    (∀ i : Fin 6, i ≠ g.fselReg →
      (g.into_alt f regs).2.1.FSEL i = regs.FSEL i) ∧
    (g.into_alt f regs).2.1.SET = regs.SET ∧
    (g.into_alt f regs).2.1.CLR = regs.CLR ∧
    (g.into_alt f regs).2.1.LEV = regs.LEV := by
  refine ⟨?_, ?_, rfl, rfl, rfl⟩
  · intro j hj hout
    simp only [Gpio.into_alt, if_pos rfl]
    exact rmw_frame_bit _ _ _ _ f.code_lt hj hout
  · intro i hi
    simp only [Gpio.into_alt]
    simp [hi]

/-- Witness for C2 at the concrete scenario: pin 35 configured Alt3 on
the all-zero register state leaves bit 0 of FSEL register 3 and the
whole FSEL register 0 unchanged. -/
theorem into_alt_frame_witness :
    Nat.testBit ((pin35.into_alt GpioFunction.Alt3 regs0).2.1.FSEL
        pin35.fselReg) 0
      = Nat.testBit (regs0.FSEL pin35.fselReg) 0 ∧
    (pin35.into_alt GpioFunction.Alt3 regs0).2.1.FSEL ⟨0, by omega⟩
      = regs0.FSEL ⟨0, by omega⟩ :=
  ⟨(into_alt_frame pin35 GpioFunction.Alt3 regs0).1 0 (by decide) (by decide),
   (into_alt_frame pin35 GpioFunction.Alt3 regs0).2.1 ⟨0, by omega⟩
     (by decide)⟩

/-- Claim C3: within the u8 range of the pin argument, new fails
fatally iff pin > 53; for pin up to 53 it returns an Uninitialized
handle carrying exactly that pin, with an empty access trace, so no
hardware write happens. -/
theorem new_ok_iff (pin : Nat) (_hu8 : pin < 256) :
    (pin ≤ 53 → ∃ g, Gpio.new pin = some (g, []) ∧ g.pin = pin) ∧
    (53 < pin → Gpio.new pin = none) := by
  constructor
  · intro h
    exact ⟨⟨pin, h⟩, by simp [Gpio.new, Nat.not_lt.mpr h], rfl⟩
  · intro h
    simp [Gpio.new, h]

/-- Witness for C3: construction with pin 53 succeeds carrying pin 53,
and construction with pin 54 fails fatally. -/
theorem new_ok_iff_witness :
    (∃ g, Gpio.new 53 = some (g, []) ∧ g.pin = 53) ∧ Gpio.new 54 = none :=
  ⟨(new_ok_iff 53 (by decide)).1 (by decide),
   (new_ok_iff 54 (by decide)).2 (by decide)⟩

/-- Claim C6: for every pin in 0..53 the FSEL register index is in
0..5 (in bounds for the 6-element array), the bit shift is in 0..27 so
the 3-bit field stays inside the 32-bit word, the bank is 0 or 1 and
the bit within the bank is in 0..31. -/
theorem index_arithmetic_in_bounds (pin : Nat) (h : pin ≤ 53) :
    fselIndex pin ≤ 5 ∧ fselShift pin ≤ 27 ∧ fselShift pin + 3 ≤ 32 ∧
    bankIndex pin ≤ 1 ∧ bankBit pin ≤ 31 := by
  unfold fselIndex fselShift bankIndex bankBit
  omega

/-- Witness for C6 at pin 53. -/
theorem index_arithmetic_in_bounds_witness :
    fselIndex 53 ≤ 5 ∧ fselShift 53 ≤ 27 ∧ fselShift 53 + 3 ≤ 32 ∧
    bankIndex 53 ≤ 1 ∧ bankBit 53 ≤ 31 :=
  index_arithmetic_in_bounds 53 (by decide)

/-- Claim C4 (divergence): evaluated on the source, set, clear and
level do not return normally even on pin 0 handles in the required
states: each body is the unconditional unimplemented macro, which
panics (modelled as none). The transition operations into_alt,
into_input and into_output, by contrast, are total and return normally
on every handle, as the other theorems show. -/
theorem set_clear_level_panic :
    Gpio.set (pin0.into_output regs0).1 regs0 = none ∧
    Gpio.clear (pin0.into_output regs0).1 regs0 = none ∧
    Gpio.level (pin0.into_input regs0).1 regs0 = none :=
  ⟨rfl, rfl, rfl⟩

/-- Claim C5 (divergence): at the concrete scenario of the spec, a pin
35 handle in the Output state, set does not perform the single write of
1 shifted by 3 to the SET register of bank 1, and clear does not write
the CLR register: both panic (none), producing no register state and no
access at all. -/
theorem set_clear_pin35_panic :
    Gpio.set (pin35.into_output regs0).1 regs0 = none ∧
    Gpio.clear (pin35.into_output regs0).1 regs0 = none :=
  ⟨rfl, rfl⟩

/-- Claim C9 (divergence): set cannot be invoked twice consecutively,
nor even once: already the first invocation on a pin 1 Output handle
panics (none), so there is no register write whose repetition could be
compared with a single call. -/
theorem set_first_call_panics :
    Gpio.set (pin1.into_output regs0).1 regs0 = none :=
  rfl

/-- Claim C7: in the handle state machine, every step starts at
Uninitialized and ends at one of Input, Output and Alt; the three
terminal states have no outgoing step, so a handle that left
Uninitialized can neither return to it nor move to a different terminal
state; and all three single-step transitions exist. -/
theorem state_machine_shape :
    (∀ s t, Step s t → s = PinState.Uninitialized ∧
      (t = PinState.Input ∨ t = PinState.Output ∨ t = PinState.Alt)) ∧
    (∀ t, ¬ Step PinState.Input t) ∧
    (∀ t, ¬ Step PinState.Output t) ∧
    (∀ t, ¬ Step PinState.Alt t) ∧
    Step PinState.Uninitialized PinState.Input ∧
    Step PinState.Uninitialized PinState.Output ∧
    Step PinState.Uninitialized PinState.Alt := by
  refine ⟨?_, ?_, ?_, ?_, Step.into_input, Step.into_output, Step.into_alt⟩
  · intro s t h
    cases h <;> simp
  · intro t h
    cases h
  · intro t h
    cases h
  · intro t h
    cases h

/-- Witness for C7: the into_input step starts at Uninitialized and
ends at a terminal state. -/
theorem state_machine_shape_witness :
    PinState.Uninitialized = PinState.Uninitialized ∧
    (PinState.Input = PinState.Input ∨ PinState.Input = PinState.Output ∨
      PinState.Input = PinState.Alt) :=
  state_machine_shape.1 PinState.Uninitialized PinState.Input Step.into_input

/-- Claim C8: into_output equals into_alt applied to the Output code
with the resulting handle re-tagged Output (identical register effect,
identical access trace, same pin), and into_input likewise with the
Input code; each derived operation performs exactly one function-select
read-modify-write, namely one FSEL read followed by one FSEL write of
register pin / 10, identical in mechanism to into_alt. -/
theorem derived_transitions_refine_into_alt (g : Gpio PinState.Uninitialized)
    (regs : Registers) :
    (g.into_output regs).2 = (g.into_alt GpioFunction.Output regs).2 ∧
    (g.into_output regs).1.pin = (g.into_alt GpioFunction.Output regs).1.pin ∧
    (g.into_input regs).2 = (g.into_alt GpioFunction.Input regs).2 ∧
    (g.into_input regs).1.pin = (g.into_alt GpioFunction.Input regs).1.pin ∧
    (∃ rv wv, (g.into_output regs).2.2 =
      [Event.readFSEL (fselIndex g.pin) rv,
       Event.writeFSEL (fselIndex g.pin) wv]) ∧
    (∃ rv wv, (g.into_input regs).2.2 =
      [Event.readFSEL (fselIndex g.pin) rv,
       Event.writeFSEL (fselIndex g.pin) wv]) :=
  ⟨rfl, rfl, rfl, rfl, ⟨_, _, rfl⟩, ⟨_, _, rfl⟩⟩

/-- Claim C10: every consuming transition returns a handle carrying the
pin of the consumed handle, addressing the same single register block
threaded through the operations; the private transition helper changes
only the type-level state tag. -/
theorem transitions_preserve_pin (g : Gpio PinState.Uninitialized)
    (f : GpioFunction) (regs : Registers) :
    (g.into_alt f regs).1.pin = g.pin ∧
    (g.into_output regs).1.pin = g.pin ∧
    (g.into_input regs).1.pin = g.pin ∧
    (∀ s t : PinState, ∀ h : Gpio s, (Gpio.transition h : Gpio t).pin = h.pin) :=
  ⟨rfl, rfl, rfl, fun _ _ _ => rfl⟩
